import Mathlib

/-!
Verification of the CodeRabbit PR-analyzer browser extension against its
natural-language specification.

The development shallowly embeds the JavaScript source:
* `calculateSimilarity` / `groupSimilarTitles` / `extractTitles` /
  `applyCombinedFilters` (filter-utils, `github-api.js` lines 801-1370),
* `parseActionableIssue` (`github-api.js` lines 148-218), modelled over
  UTF-16 code units (`List Nat`) because the JavaScript regexes are run
  without the `u` flag and therefore operate on code units,
* `fetchAllPages` (`github-api.js` lines 95-146),
* `fetchPRComments` / `analyzePRs` batching (`github-api.js` lines 220-247
  and 311-461),
* `toggleManualAcceptance` / `applyManualAcceptanceState`
  (filter-utils, lines 619-681 of the shared utility file).

Machine strings manipulated by the similarity code are modelled as Lean
`String`s (Unicode scalar values); JavaScript `toLowerCase` is modelled on
the ASCII range, which is the only range the claims exercise and does not
affect the algebraic properties proved here.
-/

namespace CodeRabbit

/-! ## JavaScript character predicates (shared by both models)

`\w` in a non-unicode JavaScript regex is exactly `[A-Za-z0-9_]`.
`\s` is the ECMAScript WhiteSpace ∪ LineTerminator set; the same set is
used by `String.prototype.trim`. -/

def jsIsWordChar (c : Char) : Bool :=
  (('a' ≤ c && c ≤ 'z') || ('A' ≤ c && c ≤ 'Z') || ('0' ≤ c && c ≤ '9') || c = '_')

def jsIsSpaceChar (c : Char) : Bool :=
  let n := c.toNat
  n = 0x20 || n = 0x9 || n = 0xA || n = 0xB || n = 0xC || n = 0xD ||
  n = 0xA0 || n = 0x1680 || (0x2000 ≤ n && n ≤ 0x200A) ||
  n = 0x2028 || n = 0x2029 || n = 0x202F || n = 0x205F || n = 0x3000 || n = 0xFEFF

/-- ASCII-range model of JavaScript `toLowerCase`. -/
def jsToLower (c : Char) : Char :=
  if 'A' ≤ c && c ≤ 'Z' then Char.ofNat (c.toNat + 32) else c

/-! ## `calculateSimilarity` (github-api.js lines 847-862)

```js
const normalize = (str) => str.toLowerCase()
  .replace(/[^\w\s]/g, ' ')
  .replace(/\s+/g, ' ')
  .trim();
const words1 = new Set(normalize(title1).split(' '));
const words2 = new Set(normalize(title2).split(' '));
const intersection = new Set([...words1].filter(w => words2.has(w)));
const union = new Set([...words1, ...words2]);
return intersection.size / union.size;
```
-/

/-- `.replace(/\s+/g, ' ')`: collapse each maximal whitespace run to one
space, written as a single pass so that the flag records whether the scan is
inside a whitespace run (only the first character of a run is emitted). -/
def collapseWsAux : Bool → List Char → List Char
  | _, [] => []
  | inRun, c :: cs =>
    if jsIsSpaceChar c then
      if inRun then collapseWsAux true cs else ' ' :: collapseWsAux true cs
    else c :: collapseWsAux false cs

def collapseWs (l : List Char) : List Char :=
  collapseWsAux false l

/-- `.trim()`. -/
def jsTrimChars (l : List Char) : List Char :=
  ((l.dropWhile jsIsSpaceChar).reverse.dropWhile jsIsSpaceChar).reverse

/-- The `normalize` arrow inside `calculateSimilarity`, on character lists. -/
def normalizeChars (l : List Char) : List Char :=
  jsTrimChars (collapseWs ((l.map jsToLower).map
    (fun c => if jsIsWordChar c || jsIsSpaceChar c then c else ' ')))

def jsNormalize (s : String) : String :=
  String.mk (normalizeChars s.data)

/-- `String.prototype.split(' ')`: split at every single space; splitting the
empty string yields one empty segment, exactly as in JavaScript. -/
def splitSp : List Char → List (List Char)
  | [] => [[]]
  | c :: cs =>
    if c = ' ' then [] :: splitSp cs
    else
      match splitSp cs with
      | t :: ts => (c :: t) :: ts
      | [] => [[c]]

/-- `new Set(normalize(title).split(' '))`. -/
def titleTokens (s : String) : Finset (List Char) :=
  (splitSp (normalizeChars s.data)).toFinset

/-- Jaccard similarity, `intersection.size / union.size`.
JavaScript computes this in floating point; the rational value is used here,
which agrees with the float on every claim checked below. -/
def calculateSimilarity (title1 title2 : String) : ℚ :=
  ((titleTokens title1 ∩ titleTokens title2).card : ℚ) /
    ((titleTokens title1 ∪ titleTokens title2).card : ℚ)

lemma splitSp_ne_nil (l : List Char) : splitSp l ≠ [] := by
  induction l with
  | nil => simp [splitSp]
  | cons c cs ih =>
    rw [splitSp]
    split
    · simp
    · cases h : splitSp cs with
      | nil => exact absurd h ih
      | cons t ts => simp

lemma titleTokens_nonempty (s : String) : (titleTokens s).Nonempty := by
  have h := splitSp_ne_nil (normalizeChars s.data)
  cases hs : splitSp (normalizeChars s.data) with
  | nil => exact absurd hs h
  | cons t ts =>
    exact ⟨t, by simp [titleTokens, hs]⟩

/-- C6: for all title strings `a` and `b`, `similarity(a,b) = similarity(b,a)`,
and for every title whose normalized token set is non-empty,
`similarity(a,a) = 1`. -/
theorem c6_similarity_symm_and_self :
    (∀ a b : String, calculateSimilarity a b = calculateSimilarity b a) ∧
    (∀ a : String, (titleTokens a).Nonempty → calculateSimilarity a a = 1) := by
  constructor
  · intro a b
    rw [calculateSimilarity, calculateSimilarity, Finset.inter_comm, Finset.union_comm]
  · intro a ha
    rw [calculateSimilarity, Finset.inter_self, Finset.union_self]
    have hc : (0 : ℚ) < (titleTokens a).card := by
      exact_mod_cast Finset.card_pos.mpr ha
    exact div_self (ne_of_gt hc)

/-- Witness for C6 at concrete titles. -/
theorem c6_similarity_witness :
    (titleTokens "Avoid using var").Nonempty ∧
    calculateSimilarity "Avoid using var" "Avoid using var" = 1 :=
  ⟨by decide, c6_similarity_symm_and_self.2 "Avoid using var" (by decide)⟩

/-- C7 counterexample: both titles normalize to the empty string (they are
punctuation only), yet the code computes similarity 1, not 0: JavaScript
`"".split(' ')` is `[""]`, so both token sets are the singleton containing
the empty token and the Jaccard ratio is 1/1. -/
theorem c7_counterexample :
    jsNormalize "!!!" = "" ∧ jsNormalize "???" = "" ∧
    calculateSimilarity "!!!" "???" ≠ 0 := by
  refine ⟨by decide, by decide, ?_⟩
  have h1 : (titleTokens "!!!" ∩ titleTokens "???").card = 1 := by decide
  have h2 : (titleTokens "!!!" ∪ titleTokens "???").card = 1 := by decide
  rw [calculateSimilarity, h1, h2]
  norm_num

lemma titleTokens_of_norm_empty {s : String} (h : jsNormalize s = "") :
    titleTokens s = {([] : List Char)} := by
  have hd : normalizeChars s.data = [] := by
    have := congrArg String.data h
    simpa [jsNormalize] using this
  simp [titleTokens, hd, splitSp]

/-- C7 amended: when both titles normalize to the empty string, the computed
similarity is 1 (not 0): the split of an empty string produces a singleton
empty token, so the two token sets coincide and are non-empty. -/
theorem c7_amended_empty_norm_similarity_one (a b : String)
    (ha : jsNormalize a = "") (hb : jsNormalize b = "") :
    calculateSimilarity a b = 1 := by
  rw [calculateSimilarity, titleTokens_of_norm_empty ha, titleTokens_of_norm_empty hb]
  simp

/-- Witness for the amended C7 at concrete punctuation-only titles. -/
theorem c7_amended_witness :
    jsNormalize "!!!" = "" ∧ jsNormalize "???" = "" ∧
    calculateSimilarity "!!!" "???" = 1 :=
  ⟨by decide, by decide,
    c7_amended_empty_norm_similarity_one "!!!" "???" (by decide) (by decide)⟩

/-! ## Manual override store (`toggleManualAcceptance`,
`applyManualAcceptanceState`, shared utility file lines 595-681)

The store persisted under the `manualAcceptance` key maps a comment URL to
`{accepted, acceptanceMethod, timestamp}`; it is modelled as an association
list in key-insertion order (JavaScript object string keys preserve insertion
order; deleting and re-adding a key moves it to the end).  The timestamp
plays no role in any claim and is omitted from the record. -/

structure OvRec where
  accepted : Bool
  acceptanceMethod : Option String
  deriving DecidableEq, Repr

abbrev OvStore := List (String × OvRec)

structure AnIssue where
  url : String
  title : String
  priority : String
  accepted : Bool
  acceptanceMethod : Option String
  deriving DecidableEq, Repr

/-- The store mutation inside `toggleManualAcceptance`:
```js
if (state[url]) { delete state[url]; }
else { state[url] = { accepted: true, acceptanceMethod: 'manual', ... }; }
```
A present record object is always truthy. -/
def toggleStore (s : OvStore) (url : String) : OvStore :=
  match s.lookup url with
  | some _ => s.eraseP (fun p => p.1 = url)
  | none => s ++ [(url, ⟨true, some "manual"⟩)]

/-- The per-issue update inside `toggleManualAcceptance`, performed against
the post-toggle store:
```js
if (issue.url === url) {
  if (state[url]) { issue.accepted = true; issue.acceptanceMethod = 'manual'; }
  else { issue.accepted = false; issue.acceptanceMethod = null; }
}
``` -/
def toggleUpdateIssue (s : OvStore) (url : String) (iss : AnIssue) : AnIssue :=
  if iss.url = url then
    match s.lookup url with
    | some _ => { iss with accepted := true, acceptanceMethod := some "manual" }
    | none => { iss with accepted := false, acceptanceMethod := none }
  else iss

/-- `toggleManualAcceptance(url, currentData, ...)`: toggles the stored
override and rewrites every issue carrying that URL. -/
def toggleManualAcceptance (s : OvStore) (url : String) (data : List AnIssue) :
    OvStore × List AnIssue :=
  let s2 := toggleStore s url
  (s2, data.map (toggleUpdateIssue s2 url))

/-- `applyManualAcceptanceState`: every issue whose URL has an override gets
the override's `accepted`/`acceptanceMethod` copied over it. -/
def applyManualAcceptanceState (s : OvStore) (data : List AnIssue) : List AnIssue :=
  data.map fun iss =>
    match s.lookup iss.url with
    | some r => { iss with accepted := r.accepted, acceptanceMethod := r.acceptanceMethod }
    | none => iss

/-- C3 counterexample: an issue automatically accepted through thread
resolution (`accepted=true`, `acceptanceMethod='graphql'`) is toggled twice
with an initially empty store; the result has `accepted=false`,
`acceptanceMethod=null` instead of the pre-toggle values, so the double
toggle does not restore the starting state. -/
theorem c3_counterexample :
    (let iss : AnIssue := ⟨"u1", "t", "Major", true, some "graphql"⟩
     let p1 := toggleManualAcceptance [] "u1" [iss]
     let p2 := toggleManualAcceptance p1.1 "u1" p1.2
     p2.2 ≠ [iss] ∧ p2.2 = [⟨"u1", "t", "Major", false, none⟩]) := by
  constructor
  · decide
  · decide

lemma lookup_append_single_self (s : OvStore) (url : String) (r : OvRec)
    (h : s.lookup url = none) : (s ++ [(url, r)]).lookup url = some r := by
  induction s with
  | nil => simp [List.lookup]
  | cons p t ih =>
    by_cases hp : url = p.1
    · simp [List.lookup, hp] at h
    · have hb : (url == p.1) = false := by simp [hp]
      simp only [List.lookup, hb] at h
      simp only [List.cons_append, List.lookup, hb]
      exact ih h

lemma eraseP_append_single_self (s : OvStore) (url : String) (r : OvRec)
    (h : s.lookup url = none) :
    (s ++ [(url, r)]).eraseP (fun p => p.1 = url) = s := by
  induction s with
  | nil => simp [List.eraseP]
  | cons p t ih =>
    by_cases hp : url = p.1
    · simp [List.lookup, hp] at h
    · have hne : ¬(p.1 = url) := fun hc => hp hc.symm
      have hb : (url == p.1) = false := by simp [hp]
      simp only [List.lookup, hb] at h
      have hd : (decide (p.1 = url)) = false := by simp [hne]
      rw [List.cons_append, List.eraseP_cons, hd]
      simp only [cond_false]
      rw [ih h]

/-- C3 amended: when the store holds no override for the URL, toggling
twice restores the store exactly, and **resets** every issue with that URL
to `accepted=false`, `acceptanceMethod=null` — the default, not the
pre-toggle automatic state; issues with other URLs are unchanged.  So the
double toggle restores the original `accepted`/`acceptanceMethod`
only when they already were `false`/`null`. -/
theorem c3_amended_double_toggle (s : OvStore) (url : String)
    (data : List AnIssue) (h : s.lookup url = none) :
    (let p1 := toggleManualAcceptance s url data
     let p2 := toggleManualAcceptance p1.1 url p1.2
     p2.1 = s ∧
     p2.2 = data.map fun iss =>
       if iss.url = url then { iss with accepted := false, acceptanceMethod := none }
       else iss) := by
  have hstore1 : toggleStore s url = s ++ [(url, ⟨true, some "manual"⟩)] := by
    rw [toggleStore, h]
  have hlook1 : (s ++ [(url, (⟨true, some "manual"⟩ : OvRec))]).lookup url
      = some ⟨true, some "manual"⟩ := lookup_append_single_self s url _ h
  have hstore2 : toggleStore (s ++ [(url, ⟨true, some "manual"⟩)]) url = s := by
    rw [toggleStore, hlook1]
    exact eraseP_append_single_self s url _ h
  constructor
  · simp only [toggleManualAcceptance, hstore1, hstore2]
  · simp only [toggleManualAcceptance, hstore1, hstore2, List.map_map]
    apply List.map_congr_left
    intro iss _
    simp only [Function.comp_apply, toggleUpdateIssue]
    by_cases hu : iss.url = url
    · simp [hu, hlook1, h]
    · simp [hu]

/-- Witness for the amended C3 at a concrete store, URL and issue list. -/
theorem c3_amended_witness :
    ((([("v", (⟨true, some "manual"⟩ : OvRec))] : OvStore).lookup "u1" = none) ∧
     (let p1 := toggleManualAcceptance [("v", ⟨true, some "manual"⟩)] "u1"
        [⟨"u1", "t", "Major", true, some "graphql"⟩]
      let p2 := toggleManualAcceptance p1.1 "u1" p1.2
      p2.1 = [("v", ⟨true, some "manual"⟩)] ∧
      p2.2 = [⟨"u1", "t", "Major", false, none⟩])) := by
  refine ⟨by decide, ?_⟩
  have h := c3_amended_double_toggle [("v", ⟨true, some "manual"⟩)] "u1"
    [⟨"u1", "t", "Major", true, some "graphql"⟩] (by decide)
  simpa using h

/-- C10: the only writer of the override store is the toggle, and the record
it inserts is `{accepted: true, acceptanceMethod: 'manual'}`; hence if every
entry of the store has `accepted=true`, the same holds after any toggle —
the store can never record a rejection. -/
theorem c10_store_only_accepts (s : OvStore) (url : String)
    (p : String × OvRec) (hs : ∀ q ∈ s, q.2.accepted = true)
    (hp : p ∈ toggleStore s url) : p.2.accepted = true := by
  rw [toggleStore] at hp
  cases hl : s.lookup url with
  | some r =>
    rw [hl] at hp
    exact hs p ((List.eraseP_sublist s).mem hp)
  | none =>
    rw [hl] at hp
    rcases List.mem_append.mp hp with hmem | hmem
    · exact hs p hmem
    · simp only [List.mem_singleton] at hmem
      rw [hmem]

/-- Witness for C10 on a concrete store and URL. -/
theorem c10_store_witness :
    (("u", (⟨true, some "manual"⟩ : OvRec)) : String × OvRec).2.accepted = true :=
  c10_store_only_accepts [] "u" ("u", ⟨true, some "manual"⟩)
    (by simp) (by decide)

/-! ## `fetchAllPages` (github-api.js lines 95-146)

```js
let results = []; let page = 1; let hasMore = true; const per_page = 100;
while (hasMore) {
  const data = await this.fetchWithRetry(url);
  let items; let maxPages = null;
  if (Array.isArray(data)) { items = data; }
  else if (data && Array.isArray(data.items)) {
    items = data.items;
    if (data.total_count !== undefined)
      maxPages = Math.ceil(Math.min(data.total_count, 1000) / per_page);
  } else { items = []; }
  if (items.length > 0) {
    results = results.concat(items); page++;
    if (maxPages !== null) hasMore = page <= maxPages;
    else hasMore = items.length === per_page;
  } else { hasMore = false; }
}
```
The server is modelled as a function from the page number to the decoded
JSON body; the loop is written with a fuel parameter (every theorem below
supplies more fuel than the loop consumes, so the fuel never truncates the
run); the second component counts the requests issued. -/

inductive ApiResponse (ι : Type) where
  | arr (items : List ι)
  | searchEnv (items : List ι) (totalCount : Option Nat)
  | other
  deriving Repr

def pageShape {ι : Type} : ApiResponse ι → List ι × Option Nat
  | .arr items => (items, none)
  | .searchEnv items total =>
      (items, total.map fun t => (Nat.min t 1000 + 99) / 100)
  | .other => ([], none)

def fetchLoop {ι : Type} (server : Nat → ApiResponse ι) :
    Nat → Nat → List ι → Nat → List ι × Nat
  | 0, _, results, count => (results, count)
  | fuel + 1, page, results, count =>
    let (items, maxPages) := pageShape (server page)
    if items.length > 0 then
      let results2 := results ++ items
      let page2 := page + 1
      let hasMore := match maxPages with
        | some m => decide (page2 ≤ m)
        | none => decide (items.length = 100)
      if hasMore then fetchLoop server fuel page2 results2 (count + 1)
      else (results2, count + 1)
    else (results, count + 1)

/-- `fetchAllPages`, returning the collected results and the number of page
requests issued. -/
def fetchAllPages {ι : Type} (server : Nat → ApiResponse ι) (fuel : Nat) :
    List ι × Nat :=
  fetchLoop server fuel 1 [] 0

/-- A search-style server that reports `total_count = 1500` and serves 100
items on every page. -/
def searchServer1500 : Nat → ApiResponse Unit :=
  fun _ => .searchEnv (List.replicate 100 ()) (some 1500)

set_option maxRecDepth 8000 in
/-- C4: against a search-style response with `total_count = 1500` and page
size 100, `fetchAllPages` issues exactly 10 page requests — the page count is
`ceil(min(total_count, 1000) / 100)`, never 15. -/
theorem c4_fetchAllPages_caps_at_ten :
    (fetchAllPages searchServer1500 1000).2 = 10 ∧
    10 = (Nat.min 1500 1000 + 99) / 100 ∧
    (fetchAllPages searchServer1500 1000).1.length = 1000 := by
  refine ⟨by decide, by decide, by decide⟩

/-! ## `fetchPRComments` (github-api.js lines 220-247) and the `analyzePRs`
batch loop (github-api.js lines 311-461)

`fetchPRComments` awaits `Promise.all` over the three per-PR comment sources
(review-level, inline-diff, general); if any of the three rejects, the
surrounding `try`/`catch` logs and returns `[]`.  Each fallible fetch is
modelled as an `Except`.

In `analyzePRs`, each batch entry runs inside `try { ... } catch { return
null; }`, so a failing PR contributes `null` exactly like a PR without
issues; the per-PR worker is abstracted as a function into
`Except Err (Option ρ)` so the catch-to-null behaviour is the only thing the
loop adds. -/

abbrev Err := String

def CODERABBIT_USERNAME : String := "coderabbitai[bot]"

structure RawComment where
  userLogin : String
  body : Option String
  deriving DecidableEq, Repr

/-- JavaScript truthiness of `r.body` for an optional string field:
`null`/`undefined` and the empty string are falsy. -/
def truthyBody : Option String → Bool
  | none => false
  | some s => !(s = "")

def fetchPRComments (reviews reviewComments issueComments :
    Except Err (List RawComment)) : List RawComment :=
  match reviews, reviewComments, issueComments with
  | .ok rs, .ok rcs, .ok ics =>
    rs.filter (fun r => r.userLogin = CODERABBIT_USERNAME && truthyBody r.body) ++
    rcs.filter (fun c => c.userLogin = CODERABBIT_USERNAME) ++
    ics.filter (fun c => c.userLogin = CODERABBIT_USERNAME)
  | _, _, _ => []

/-- `const BATCH_SIZE = 20` — `filteredPRs.slice(i, i + BATCH_SIZE)` for
`i = 0, 20, 40, ...`. -/
def batchesGo {α : Type} : Nat → List α → List (List α)
  | _, [] => []
  | 0, _ :: _ => []
  | n + 1, x :: xs => ((x :: xs).take 20) :: batchesGo n ((x :: xs).drop 20)

/-- Each loop iteration consumes at least one element, so `l.length` units of
fuel always cover the whole loop and `batchesGo` never stops early. -/
def batchesOf20 {α : Type} (l : List α) : List (List α) :=
  batchesGo l.length l

/-- The `try { ... } catch { return null; }` wrapper around one PR of a
batch. -/
def perPRCatch {α ρ : Type} (f : α → Except Err (Option ρ)) (pr : α) : Option ρ :=
  match f pr with
  | .error _ => none
  | .ok o => o

/-- The batch loop of `analyzePRs`: process the PR list in batches of 20,
run the per-PR worker on every batch entry with its catch-to-null wrapper,
and keep the non-null results in order. -/
def analyzePRsCore {α ρ : Type} (f : α → Except Err (Option ρ)) (prs : List α) :
    List ρ :=
  ((batchesOf20 prs).flatMap fun batch => batch.map (perPRCatch f)).filterMap id

/-- `analyzePRs` as seen from the caller: the initial bulk search is the only
fatal step; its failure propagates, anything after it is per-item
best-effort. -/
def analyzePRs {α ρ : Type} (search : Except Err (List α))
    (f : α → Except Err (Option ρ)) : Except Err (List ρ) :=
  match search with
  | .error e => .error e
  | .ok prs => .ok (analyzePRsCore f prs)

/-- The `current` values reported by the per-batch progress callback:
`current: i + batch.length`, i.e. the running total of batch sizes. -/
def progressCurrents {α : Type} (prs : List α) : List Nat :=
  ((batchesOf20 prs).map List.length).scanl (· + ·) 0 |>.tail

/-- C5: (a) if any of the three per-PR comment fetches fails,
`fetchPRComments` returns the empty comment list instead of propagating the
error; (b) a per-PR worker failure contributes exactly a null result — the
batch loop computes the same output as if that PR had returned null
successfully; (c) whenever the bulk search succeeds, the whole analysis
returns a result, whatever the per-PR workers do — per-PR failures never
abort the run. -/
theorem c5_per_pr_failures_degrade :
    (∀ r1 r2 r3 : Except Err (List RawComment),
      (r1.isOk = false ∨ r2.isOk = false ∨ r3.isOk = false) →
      fetchPRComments r1 r2 r3 = []) ∧
    (∀ (α ρ : Type) (f : α → Except Err (Option ρ)) (prs : List α),
      analyzePRsCore f prs =
        analyzePRsCore (fun pr => .ok (perPRCatch f pr)) prs) ∧
    (∀ (α ρ : Type) (prs : List α) (f : α → Except Err (Option ρ)),
      analyzePRs (.ok prs) f = .ok (analyzePRsCore f prs)) := by
  refine ⟨?_, ?_, ?_⟩
  · intro r1 r2 r3 h
    rcases r1 with e1 | v1 <;> rcases r2 with e2 | v2 <;> rcases r3 with e3 | v3 <;>
      simp [fetchPRComments, Except.isOk, Except.toBool] at h ⊢
  · intro α ρ f prs
    rfl
  · intro α ρ prs f
    rfl

/-- Witness for C5: a failed first source yields an empty comment list, and a
worker that fails on PR 0 produces the same run as one that returns null for
PR 0. -/
theorem c5_witness :
    fetchPRComments (.error "network") (.ok []) (.ok []) = [] ∧
    analyzePRsCore
        (fun n : Nat => if n = 0 then (.error "boom" : Except Err (Option Nat))
          else .ok (some n)) [0, 1] =
      analyzePRsCore
        (fun n : Nat => .ok (perPRCatch
          (fun n : Nat => if n = 0 then (.error "boom" : Except Err (Option Nat))
            else .ok (some n)) n)) [0, 1] :=
  ⟨c5_per_pr_failures_degrade.1 _ _ _ (Or.inl rfl),
   c5_per_pr_failures_degrade.2.1 _ _ _ _⟩

lemma chain_le_scanl_add (init : Nat) (ls : List Nat) :
    List.Chain' (· ≤ ·) (List.scanl (· + ·) init ls) := by
  induction ls generalizing init with
  | nil => simp
  | cons a t ih =>
    rw [List.scanl]
    refine List.Chain'.cons' (ih (init + a)) ?_
    intro y hy
    cases t <;> simp only [List.scanl, List.head?_cons, Option.mem_def,
      Option.some.injEq] at hy <;> omega

set_option maxRecDepth 4000 in
/-- C9: with 45 PRs and batch size 20 the orchestrator runs exactly 3 batches
of sizes 20, 20 and 5, and the `current` values reported by the per-batch
progress callback are monotonically non-decreasing — for every PR list, since
they are running totals of batch sizes. -/
theorem c9_batches_and_progress :
    ((batchesOf20 (List.range 45)).map List.length = [20, 20, 5]) ∧
    (∀ (α : Type) (prs : List α), List.Chain' (· ≤ ·) (progressCurrents prs)) := by
  constructor
  · decide
  · intro α prs
    exact (chain_le_scanl_add 0 ((batchesOf20 prs).map List.length)).tail

/-! ## `parseActionableIssue` (github-api.js lines 148-218)

JavaScript strings are sequences of UTF-16 code units and the regexes in
this function carry no `u` flag, so they operate code unit by code unit.
Bodies are therefore modelled as `List Nat` of UTF-16 code units.  This
matters: in the priority character class `[🔵🟠🟡🔴🟣]` each emoji
contributes its two surrogate code units as separate class atoms, so the
class consumes exactly one code unit — the shared high surrogate `0xD83D`
(or a lone low surrogate) — and the low surrogate of the matched emoji is
left for the following capture group.

Each regex of the function is small enough to admit a direct deterministic
matcher; greedy-with-backtracking behaviour of `\s*` before a capture is
reproduced exactly where it is observable (see `wsCapUnd`). -/

/-- ECMAScript `\s` (and the `trim` character set), on code units. -/
def uIsWs (u : Nat) : Bool :=
  u = 0x20 || u = 0x9 || u = 0xA || u = 0xB || u = 0xC || u = 0xD ||
  u = 0xA0 || u = 0x1680 || (0x2000 ≤ u && u ≤ 0x200A) ||
  u = 0x2028 || u = 0x2029 || u = 0x202F || u = 0x205F || u = 0x3000 || u = 0xFEFF

/-- Encode an ASCII string as UTF-16 code units. -/
def asciiU (s : String) : List Nat :=
  s.data.map Char.toNat

def trimU (l : List Nat) : List Nat :=
  ((l.dropWhile uIsWs).reverse.dropWhile uIsWs).reverse

/-- Consume an exact literal, returning the remainder. -/
def dropLit : List Nat → List Nat → Option (List Nat)
  | [], l => some l
  | _ :: _, [] => none
  | p :: ps, u :: us => if u = p then dropLit ps us else none

def litAt (pat l : List Nat) : Bool :=
  (dropLit pat l).isSome

/-- First index at which `needle` occurs in `haystack`
(`String.prototype.indexOf`, as an `Option`). -/
def idxOfSub (needle : List Nat) : List Nat → Option Nat
  | [] => if needle.isEmpty then some 0 else none
  | l@(_ :: tl) =>
    if litAt needle l then some 0 else (idxOfSub needle tl).map (· + 1)

def containsSub (needle haystack : List Nat) : Bool :=
  (idxOfSub needle haystack).isSome

/-- `\s*([^_]+)_`: the whole stretch up to the first underscore is
non-underscore, the greedy `\s*` eats its whitespace prefix but backtracks
just enough to leave the capture non-empty. -/
def wsCapUnd (l : List Nat) : Option (List Nat × List Nat) :=
  let m := (l.takeWhile (fun u => !(u = 0x5F))).length
  match l.drop m with
  | [] => none
  | _ :: rest =>
    if m = 0 then none
    else
      let j := Nat.min (l.takeWhile uIsWs).length (m - 1)
      some ((l.drop j).take (m - j), rest)

/-- The four severity alternatives `(⚠️|🧹|💡|🔍)` as code-unit sequences
(U+26A0 U+FE0F; U+1F9F9, U+1F4A1, U+1F50D as surrogate pairs). -/
def sevAlts : List (List Nat) :=
  [[0x26A0, 0xFE0F], [0xD83E, 0xDDF9], [0xD83D, 0xDCA1], [0xD83D, 0xDD0D]]

/-- The priority class `[🔵🟠🟡🔴🟣]` without the `u` flag: the set of
individual surrogate code units appearing in the class source
(U+1F535, U+1F7E0, U+1F7E1, U+1F534, U+1F7E3). -/
def priClassUnits : List Nat :=
  [0xD83D, 0xDD35, 0xDFE0, 0xDFE1, 0xDD34, 0xDFE3]

def firstAlt : List (List Nat) → List Nat → Option (List Nat)
  | [], _ => none
  | a :: as2, l =>
    match dropLit a l with
    | some rest => some rest
    | none => firstAlt as2 l

/-- Attempt the severity/priority marker regex
`_(⚠️|🧹|💡|🔍)\s*([^_]+)_\s*\|\s*_([🔵🟠🟡🔴🟣])\s*([^_]+)_` at the head of
`l`; on success return the raw severity capture, the raw priority capture
and the remainder after the final underscore. -/
def sevMatchAt (l : List Nat) : Option (List Nat × List Nat × List Nat) :=
  match dropLit [0x5F] l with
  | none => none
  | some rest0 =>
    match firstAlt sevAlts rest0 with
    | none => none
    | some rest1 =>
      match wsCapUnd rest1 with
      | none => none
      | some (sevRaw, rest2) =>
        match dropLit [0x7C] (rest2.dropWhile uIsWs) with
        | none => none
        | some rest4 =>
          match dropLit [0x5F] (rest4.dropWhile uIsWs) with
          | none => none
          | some rest6 =>
            match rest6 with
            | [] => none
            | u :: rest7 =>
              if priClassUnits.contains u then
                match wsCapUnd rest7 with
                | none => none
                | some (priRaw, rest8) => some (sevRaw, priRaw, rest8)
              else none

/-- Leftmost match of the marker regex.  The remainder returned equals
`body.substring(body.indexOf(match[0]) + match[0].length)`: the regex
matched at the leftmost possible start, and an earlier occurrence of the
matched text would itself have matched there. -/
def findSevMatch : List Nat → Option (List Nat × List Nat × List Nat)
  | [] => none
  | l@(_ :: tl) =>
    match sevMatchAt l with
    | some r => some r
    | none => findSevMatch tl

/-- Attempt `<\/details>\s*\n\s*\*\*([^*]+)\*\*` at the head of `l`:
the whitespace run after the literal must contain a newline (`\s*\n\s*`
backtracks onto the last newline of the run and then re-consumes the rest),
then a bold span follows.  Returns the capture and the remainder. -/
def detailsMatchAt (l : List Nat) : Option (List Nat × List Nat) :=
  match dropLit (asciiU "</details>") l with
  | none => none
  | some rest0 =>
    let run := rest0.takeWhile uIsWs
    if run.contains 0xA then
      match dropLit [0x2A, 0x2A] (rest0.dropWhile uIsWs) with
      | none => none
      | some rest2 =>
        let m := (rest2.takeWhile (fun u => !(u = 0x2A))).length
        if m = 0 then none
        else
          match rest2.drop m with
          | _ :: s2 :: rest3 =>
            if s2 = 0x2A then some (rest2.take m, rest3) else none
          | _ => none
    else none

def findDetails : List Nat → Option (List Nat × List Nat)
  | [] => none
  | l@(_ :: tl) =>
    match detailsMatchAt l with
    | some r => some r
    | none => findDetails tl

/-- Attempt `\*\*([^*]+)\*\*` at the head of `l`. -/
def boldMatchAt (l : List Nat) : Option (List Nat) :=
  match dropLit [0x2A, 0x2A] l with
  | none => none
  | some rest =>
    let m := (rest.takeWhile (fun u => !(u = 0x2A))).length
    if m = 0 then none
    else
      match rest.drop m with
      | _ :: s2 :: _ => if s2 = 0x2A then some (rest.take m) else none
      | _ => none

def findBold : List Nat → Option (List Nat)
  | [] => none
  | l@(_ :: tl) =>
    match boldMatchAt l with
    | some r => some r
    | none => findBold tl

/-- Anchored `^\s*\n\s*([^…]+)` where `stops` lists the excluded code units
(`[^\n<]` for the title pattern, `[^\n<` followed by a backtick `]` for the
description pattern).  The leading whitespace run must contain a newline;
the value captured is the maximal run of allowed units after the whitespace.
Residual backtracking inside the whitespace run can in corner cases capture
a run of whitespace characters instead; that capture trims to the empty
string, making the parser state identical to the no-match case modelled
here. -/
def anchoredNlCap (stops : List Nat) (l : List Nat) : Option (List Nat) :=
  let run := l.takeWhile uIsWs
  if run.contains 0xA then
    let cap := (l.dropWhile uIsWs).takeWhile (fun u => !(stops.contains u))
    if cap.isEmpty then none else some cap
  else none

/-- Earliest index at which `(?:<details>|<!--)` occurs. -/
def findStopMarker : List Nat → Option Nat
  | [] => none
  | l@(_ :: tl) =>
    if litAt (asciiU "<details>") l || litAt (asciiU "<!--") l then some 0
    else (findStopMarker tl).map (· + 1)

/-- `.replace(/<[^>]+>/g, '')`, with fuel (one unit per emitted or skipped
character, so `l.length` always suffices). -/
def stripTagsGo : Nat → List Nat → List Nat
  | _, [] => []
  | 0, l => l
  | f + 1, c :: cs =>
    if c = 0x3C then
      let m := (cs.takeWhile (fun u => !(u = 0x3E))).length
      match cs.drop m with
      | _ :: rest => if m = 0 then c :: stripTagsGo f cs else stripTagsGo f rest
      | [] => c :: stripTagsGo f cs
    else c :: stripTagsGo f cs

def stripTags (l : List Nat) : List Nat :=
  stripTagsGo l.length l

/-- `.replace(/\n{3,}/g, '\n\n')`, with fuel in the same way. -/
def collapseNl3Go : Nat → List Nat → List Nat
  | _, [] => []
  | 0, l => l
  | f + 1, c :: cs =>
    if c = 0xA then
      let run := (c :: cs).takeWhile (fun u => u = 0xA)
      (if 3 ≤ run.length then [0xA, 0xA] else run) ++
        collapseNl3Go f ((c :: cs).drop run.length)
    else c :: collapseNl3Go f cs

def collapseNl3 (l : List Nat) : List Nat :=
  collapseNl3Go l.length l

/-- `String.prototype.split('\n')`. -/
def splitNlU : List Nat → List (List Nat)
  | [] => [[]]
  | c :: cs =>
    if c = 0xA then [] :: splitNlU cs
    else
      match splitNlU cs with
      | t :: ts => (c :: t) :: ts
      | [] => [[c]]

structure IssueU where
  severity : List Nat
  priority : List Nat
  title : List Nat
  description : List Nat
  url : List Nat
  timestamp : List Nat
  accepted : Bool
  acceptanceMethod : Option (List Nat)
  deriving DecidableEq, Repr

/-- `parseActionableIssue(body)`, faithful to the source's strategy chain:
marker match, then (1) bold heading after `</details>` with a delimited
description, else (2) first bold span after the marker, else (3) first
non-empty line after the marker; description from the text after the chosen
title; fallback title from the first non-empty line of the stripped body,
truncated to 100 units. -/
def parseActionableIssue (body : List Nat) : Option IssueU :=
  if body.isEmpty then none
  else
    match findSevMatch body with
    | none => none
    | some (sevRaw, priRaw, afterSeverity) =>
      let severity := trimU sevRaw
      let priority := trimU priRaw
      let td : List Nat × List Nat :=
        match findDetails body with
        | some (cap, afterTitle) =>
          (trimU cap,
            match findStopMarker afterTitle with
            | some k => collapseNl3 (trimU (afterTitle.take k))
            | none => [])
        | none =>
          let t0 := match findBold afterSeverity with
            | some cap => trimU cap
            | none => []
          let t1 :=
            if t0.isEmpty then
              match anchoredNlCap [0xA, 0x3C] afterSeverity with
              | some cap => trimU cap
              | none => t0
            else t0
          let descStart :=
            if t1.isEmpty then 0
            else
              match idxOfSub t1 afterSeverity with
              | some i => i + t1.length
              | none => t1.length - 1
          let d := match anchoredNlCap [0xA, 0x3C, 0x60] (afterSeverity.drop descStart) with
            | some cap => trimU cap
            | none => []
          (t1, d)
      let title :=
        if td.1.isEmpty then
          let cleanBody := trimU ((stripTags body).filter
            (fun u => !(u = 0x5F || u = 0x2A || u = 0x60)))
          match (splitNlU cleanBody).filter (fun ln => !(trimU ln).isEmpty) with
          | [] => td.1
          | ln :: _ => ln.take 100 ++ (if 100 < ln.length then asciiU "..." else [])
        else td.1
      some { severity, priority, title, description := td.2, url := [],
             timestamp := [], accepted := false, acceptanceMethod := none }

/-- The C1 example body
`"_⚠️ Potential issue_ | _🟠 Major_\n\n**Avoid using var**\nUse let or const instead."`
as UTF-16 code units (🟠 is the surrogate pair `0xD83D 0xDFE0`). -/
def c1Body : List Nat :=
  asciiU "_" ++ [0x26A0, 0xFE0F] ++ asciiU " Potential issue_ | _" ++
  [0xD83D, 0xDFE0] ++
  asciiU " Major_\n\n**Avoid using var**\nUse let or const instead."

/-- C1, evaluated at the failing input: the parse does return an issue, with
the claimed severity and title, but the priority is the low surrogate of 🟠
followed by `" Major"` — the priority character class lacks the `u` flag and
consumes only the high surrogate — and the description is empty, because the
description regex is anchored immediately after the bold title, at `"**"`,
where `^\s*\n` cannot match.  The claimed `priority="Major"` and
`description="Use let or const instead."` both fail. -/
theorem c1_parse_example_diverges :
    parseActionableIssue c1Body = some
      { severity := asciiU "Potential issue",
        priority := 0xDFE0 :: asciiU " Major",
        title := asciiU "Avoid using var",
        description := [], url := [], timestamp := [],
        accepted := false, acceptanceMethod := none } ∧
    (0xDFE0 :: asciiU " Major") ≠ asciiU "Major" ∧
    ([] : List Nat) ≠ asciiU "Use let or const instead." := by
  refine ⟨by decide, by decide, by decide⟩

/-- A body that carries the severity/priority marker and the literal
acceptance phrase `"addressed in commit"`. -/
def c2Body : List Nat :=
  asciiU "_" ++ [0x26A0, 0xFE0F] ++ asciiU " Potential issue_ | _" ++
  [0xD83D, 0xDFE0] ++
  asciiU " Major_\n\n**Fix loop**\nThis was addressed in commit abc123."

/-- C2 counterexample: the body contains both the marker and the literal
phrase `"addressed in commit"`, no resolution has marked it accepted, yet
the parsed issue has `accepted=false` and `acceptanceMethod=null` — the
parser contains no acceptance-phrase scan at all. -/
theorem c2_counterexample :
    containsSub (asciiU "addressed in commit") c2Body = true ∧
    (parseActionableIssue c2Body).map IssueU.accepted = some false ∧
    (parseActionableIssue c2Body).map IssueU.acceptanceMethod = some none := by
  refine ⟨by decide, by decide, by decide⟩

/-- C2 amended: `parseActionableIssue` never inspects the body for an
acceptance phrase; on every body it parses at all it returns
`accepted=false` and `acceptanceMethod=null` (acceptance is assigned only
later, by thread resolution or by a manual override). -/
theorem c2_amended_parser_never_accepts (body : List Nat) (r : IssueU)
    (h : parseActionableIssue body = some r) :
    r.accepted = false ∧ r.acceptanceMethod = none := by
  rw [parseActionableIssue] at h
  split at h
  · exact absurd h (by simp)
  · split at h
    · exact absurd h (by simp)
    · simp only [Option.some.injEq] at h
      subst h
      exact ⟨rfl, rfl⟩

/-- Witness for the amended C2 at the concrete phrase-carrying body. -/
theorem c2_amended_witness :
    ((parseActionableIssue c2Body).getD
        ⟨[], [], [], [], [], [], true, some []⟩).accepted = false ∧
    ((parseActionableIssue c2Body).getD
        ⟨[], [], [], [], [], [], true, some []⟩).acceptanceMethod = none :=
  c2_amended_parser_never_accepts c2Body _ (by decide)

/-! ## `extractTitles` / `groupSimilarTitles` / `applyCombinedFilters`
(github-api.js lines 808-839, 869-903, 1333-1370)

`extractTitles` groups issues by exact title (JavaScript object keys are
modelled as an association list in key-insertion order; the special ordering
of integer-like keys is immaterial here because both sides of the claim call
the same function), sorts by occurrence count descending (`Array.sort` is
stable, modelled by `mergeSort`), and clusters by representative-only
similarity at threshold 0.6.  `applyCombinedFilters` recomputes the title
groups and keeps each occurrence iff it matches both the priority and the
acceptance selections; the `updateFilterCounts` call it makes first only
rewrites DOM counters and is outside the returned value. -/

structure PREntry where
  number : Nat
  title : String
  actionableIssues : List AnIssue
  deriving DecidableEq, Repr

structure Occurrence where
  url : String
  prNumber : Nat
  prTitle : String
  priority : String
  accepted : Bool
  acceptanceMethod : Option String
  deriving DecidableEq, Repr

/-- One pushed occurrence: `accepted: issue.accepted || false`,
`acceptanceMethod: issue.acceptanceMethod || null` (an empty string is
falsy). -/
def mkOccurrence (pr : PREntry) (iss : AnIssue) : Occurrence :=
  { url := iss.url, prNumber := pr.number, prTitle := pr.title,
    priority := iss.priority, accepted := iss.accepted,
    acceptanceMethod :=
      match iss.acceptanceMethod with
      | some s => if s = "" then none else some s
      | none => none }

/-- `const title = issue.title || '(No title)';` -/
def keyOfTitle (t : String) : String :=
  if t = "" then "(No title)" else t

def issuePairs (data : List PREntry) : List (String × Occurrence) :=
  data.flatMap fun pr => pr.actionableIssues.map fun iss =>
    (keyOfTitle iss.title, mkOccurrence pr iss)

/-- `titleGroups[title].push(occ)` with key-insertion order. -/
def upsertPair : List (String × List Occurrence) → String → Occurrence →
    List (String × List Occurrence)
  | [], k, o => [(k, [o])]
  | (k2, os) :: rest, k, o =>
    if k2 = k then (k2, os ++ [o]) :: rest
    else (k2, os) :: upsertPair rest k o

def titleGroupsMap (ps : List (String × Occurrence)) :
    List (String × List Occurrence) :=
  ps.foldl (fun m p => upsertPair m p.1 p.2) []

structure TitleEntry where
  title : String
  count : Nat
  occurrences : List Occurrence
  deriving DecidableEq, Repr

structure TitleGroup where
  mainTitle : String
  totalCount : Nat
  items : List TitleEntry
  allOccurrences : List Occurrence
  deriving DecidableEq, Repr

/-- `const SIMILARITY_THRESHOLD = 0.6;` with `similarity >= threshold`. -/
def simAtLeastThreshold (a b : String) : Bool :=
  decide ((3 / 5 : ℚ) ≤ calculateSimilarity a b)

/-- The greedy used-set loop of `groupSimilarTitles`: the first unassigned
title opens a group, later unassigned titles with similarity ≥ 0.6 to the
representative are absorbed in scan order and never revisited. -/
def clusterGroups : List TitleEntry → List TitleGroup
  | [] => []
  | t :: rest =>
    let absorbed := rest.filter fun u => simAtLeastThreshold t.title u.title
    let remaining := rest.filter fun u => !(simAtLeastThreshold t.title u.title)
    { mainTitle := t.title,
      totalCount := absorbed.foldl (fun acc u => acc + u.count) t.count,
      items := t :: absorbed,
      allOccurrences := t.occurrences ++ absorbed.flatMap (·.occurrences) } ::
      clusterGroups remaining
termination_by l => l.length
decreasing_by
  simp only [List.length_cons]
  exact Nat.lt_succ_of_le (List.length_filter_le _ _)

def groupSimilarTitles (titles : List TitleEntry) : List TitleGroup :=
  (clusterGroups titles).mergeSort fun a b => decide (b.totalCount ≤ a.totalCount)

def extractTitles (data : List PREntry) : List TitleGroup :=
  let titles :=
    ((titleGroupsMap (issuePairs data)).map fun p =>
      ({ title := p.1, count := p.2.length, occurrences := p.2 } : TitleEntry)
    ).mergeSort fun a b => decide (b.count ≤ a.count)
  groupSimilarTitles titles

/-- The per-occurrence predicate of `applyCombinedFilters`: priority AND
acceptance. -/
def occurrenceMatches (selPri : List String) (selAcc : String)
    (o : Occurrence) : Bool :=
  (selPri.contains "all" || selPri.contains o.priority) &&
  (if selAcc = "accepted" then o.accepted
   else if selAcc = "not-accepted" then !o.accepted
   else true)

def applyCombinedFilters (data : List PREntry) (selPri : List String)
    (selAcc : String) : List TitleGroup :=
  let titles := extractTitles data
  (titles.map fun g =>
    let fo := g.allOccurrences.filter (occurrenceMatches selPri selAcc)
    if fo.length = 0 then none
    else some { g with allOccurrences := fo, totalCount := fo.length }
  ).filterMap id

/-! Well-formedness invariants through the `extractTitles` pipeline. -/

def WfEntry (t : TitleEntry) : Prop :=
  t.count = t.occurrences.length ∧ t.occurrences ≠ []

def WfGroup (g : TitleGroup) : Prop :=
  g.totalCount = g.allOccurrences.length ∧ g.allOccurrences ≠ []

lemma upsertPair_wf (m : List (String × List Occurrence)) (k : String)
    (o : Occurrence) (hm : ∀ p ∈ m, p.2 ≠ []) :
    ∀ p ∈ upsertPair m k o, p.2 ≠ [] := by
  induction m with
  | nil =>
    intro p hp
    simp only [upsertPair, List.mem_singleton] at hp
    subst hp
    simp
  | cons q rest ih =>
    intro p hp
    obtain ⟨k2, os⟩ := q
    rw [upsertPair] at hp
    split at hp
    · rcases List.mem_cons.mp hp with h | h
      · subst h
        simp
      · exact hm p (List.mem_cons_of_mem _ h)
    · rcases List.mem_cons.mp hp with h | h
      · subst h
        exact hm (k2, os) (by simp)
      · exact ih (fun q hq => hm q (List.mem_cons_of_mem _ hq)) p h

lemma titleGroupsMap_wf (ps : List (String × Occurrence)) :
    ∀ p ∈ titleGroupsMap ps, p.2 ≠ [] := by
  have general : ∀ (ps : List (String × Occurrence))
      (m : List (String × List Occurrence)), (∀ p ∈ m, p.2 ≠ []) →
      ∀ p ∈ ps.foldl (fun m p => upsertPair m p.1 p.2) m, p.2 ≠ [] := by
    intro ps
    induction ps with
    | nil => intro m hm p hp; exact hm p hp
    | cons q rest ih =>
      intro m hm p hp
      exact ih _ (upsertPair_wf m q.1 q.2 hm) p hp
  exact general ps [] (by simp)

lemma foldl_add_counts (l : List TitleEntry) (n : Nat) :
    l.foldl (fun acc u => acc + u.count) n = n + (l.map TitleEntry.count).sum := by
  induction l generalizing n with
  | nil => simp
  | cons t rest ih =>
    simp only [List.foldl_cons, List.map_cons, List.sum_cons, ih]
    omega

lemma clusterGroups_wf_aux : ∀ (n : Nat) (l : List TitleEntry),
    l.length ≤ n → (∀ t ∈ l, WfEntry t) → ∀ g ∈ clusterGroups l, WfGroup g := by
  intro n
  induction n with
  | zero =>
    intro l hlen _ g hg
    rw [List.length_eq_zero.mp (Nat.le_zero.mp hlen)] at hg
    simp [clusterGroups] at hg
  | succ n ih =>
    intro l hlen hwf g hg
    match l with
    | [] => simp [clusterGroups] at hg
    | t :: rest =>
      rw [clusterGroups] at hg
      rcases List.mem_cons.mp hg with h | h
      · subst h
        constructor
        · simp only [foldl_add_counts, List.length_append, List.length_flatMap]
          have hcount : ∀ u ∈ rest.filter
              (fun u => simAtLeastThreshold t.title u.title),
              u.count = u.occurrences.length := by
            intro u hu
            exact (hwf u (List.mem_cons_of_mem _ (List.mem_of_mem_filter hu))).1
          have hmap : (rest.filter
                (fun u => simAtLeastThreshold t.title u.title)).map
                TitleEntry.count =
              (rest.filter (fun u => simAtLeastThreshold t.title u.title)).map
                (fun u => u.occurrences.length) :=
            List.map_congr_left hcount
          rw [(hwf t (by simp)).1, hmap]
          simp [Function.comp_def]
        · have := (hwf t (by simp)).2
          simp only [ne_eq, List.append_eq_nil]
          intro hc
          exact this hc.1
      · have hle : (rest.filter
            (fun u => !(simAtLeastThreshold t.title u.title))).length ≤ n := by
          have h1 := List.length_filter_le
            (fun u => !(simAtLeastThreshold t.title u.title)) rest
          simp only [List.length_cons] at hlen
          omega
        refine ih _ hle ?_ g h
        intro u hu
        exact hwf u (List.mem_cons_of_mem _ (List.mem_of_mem_filter hu))

lemma clusterGroups_wf (l : List TitleEntry) (hwf : ∀ t ∈ l, WfEntry t) :
    ∀ g ∈ clusterGroups l, WfGroup g :=
  clusterGroups_wf_aux l.length l (Nat.le_refl _) hwf

lemma extractTitles_wf (data : List PREntry) :
    ∀ g ∈ extractTitles data, WfGroup g := by
  intro g hg
  rw [extractTitles, groupSimilarTitles] at hg
  rw [List.mem_mergeSort] at hg
  refine clusterGroups_wf _ ?_ g hg
  intro t ht
  rw [List.mem_mergeSort] at ht
  obtain ⟨p, hp, rfl⟩ := List.mem_map.mp ht
  exact ⟨rfl, titleGroupsMap_wf _ p hp⟩

lemma map_some_filterMap {α : Type} (l : List α) (f : α → Option α)
    (hf : ∀ a ∈ l, f a = some a) : (l.map f).filterMap id = l := by
  induction l with
  | nil => simp
  | cons a rest ih =>
    simp only [List.map_cons, List.filterMap_cons, hf a (by simp), id]
    rw [ih (fun b hb => hf b (List.mem_cons_of_mem _ hb))]

/-- C8: the all/all filter is the identity — with
`selectedPriorities = {"all"}` and `selectedAcceptance = "all"`,
`applyCombinedFilters` returns exactly the title groups of the input, every
occurrence unchanged and each group's `totalCount` equal to its occurrence
count. -/
theorem c8_all_all_filter_identity (data : List PREntry) :
    applyCombinedFilters data ["all"] "all" = extractTitles data := by
  rw [applyCombinedFilters]
  refine map_some_filterMap _ _ ?_
  intro g hg
  have hmatch : ∀ o ∈ g.allOccurrences, occurrenceMatches ["all"] "all" o := by
    intro o _
    simp [occurrenceMatches]
  have hfilter : g.allOccurrences.filter (occurrenceMatches ["all"] "all") =
      g.allOccurrences := List.filter_eq_self.mpr hmatch
  have hwf := extractTitles_wf data g hg
  simp only [hfilter]
  rw [if_neg (fun hc => hwf.2 (List.length_eq_zero.mp hc))]
  obtain ⟨ht, _⟩ := hwf
  cases g
  simp_all

end CodeRabbit
